/-
Verification of the arg-parse command-line parser (src/src/arg-parse.cpp).

Shallow embedding conventions:
* std::string is modelled as `List Char` (abbreviated `Str`);
* std::map<std::string, T> is modelled as an association list with
  insert-or-overwrite and first-match lookup;
* the non-owning back-reference tables `_longFlags` / `_shortFlags`
  (std::map<std::string, Flag*>) are modelled as maps from the alias string
  to the owning key inside `_flags`; a null pointer is `none`;
* operations that are undefined behaviour in C++ (dereferencing a null
  pointer, indexing a std::vector out of range, reading argv out of bounds)
  make the embedded operation return `none`;
* callbacks (CallBackFunc) are stored by the C++ code but never invoked by
  any of the embedded operations, so they are dropped from the model.

The header arg-parse.h included by arg-parse.cpp is not part of the sources;
only the struct members actually exercised by arg-parse.cpp are modelled, and
the few members that the spec requires but arg-parse.cpp never defines
(Value.isSet, Arg.isDefined, Arg::setArg) are modelled from the spec and
marked as such in their doc comments.
-/
import Mathlib

namespace argparse

abbrev Str := List Char

/-- Association-list lookup, modelling std::map::find (first matching key). -/
def mapFind? {α : Type} : List (Str × α) → Str → Option α
  | [], _ => none
  | (k', v) :: rest, k => if k' = k then some v else mapFind? rest k

/-- Insert-or-overwrite, modelling assignment through std::map::operator[]. -/
def mapInsert {α : Type} : List (Str × α) → Str → α → List (Str × α)
  | [], k, v => [(k, v)]
  | (k', v') :: rest, k, v =>
    if k' = k then (k, v) :: rest else (k', v') :: mapInsert rest k v

/-- std::map::operator[] on the reading side: return the mapped value,
default-inserting `d` when the key is absent. -/
def mapGetD {α : Type} (m : List (Str × α)) (k : Str) (d : α) : α × List (Str × α) :=
  match mapFind? m k with
  | some v => (v, m)
  | none => (d, mapInsert m k d)

/-- Mutation of the value stored under a key, modelling a write through a
pointer that points into the (unique-key) map. Absent keys are untouched. -/
def mapUpdate {α : Type} : List (Str × α) → Str → (α → α) → List (Str × α)
  | [], _, _ => []
  | (k', v) :: rest, k, g =>
    if k' = k then (k', g v) :: rest else (k', v) :: mapUpdate rest k g

/-- The five lexical shapes of enum ParamType (arg-parse.cpp lines 96-102). -/
inductive ParamType
  | ArgType
  | ShortFlagType
  | ShortFlagsType
  | LongFlagWithEqType
  | LongFlagWithoutEqType
deriving DecidableEq

/-- Token classifier mapParamType (arg-parse.cpp lines 104-127).
The C++ code asserts that the token is non-empty; the assert is a
precondition, so the Lean function is total and theorems carry the
non-emptiness hypothesis where it matters. -/
def mapParamType (arg : Str) : ParamType :=
  if arg.length = 1 ∨ arg.head? ≠ some '-' ∨ (arg.length = 2 ∧ arg.getD 1 ' ' = '-') then
    .ArgType
  else if arg.length = 2 then .ShortFlagType
  else if arg.getD 1 ' ' ≠ '-' then .ShortFlagsType
  else if '=' ∈ arg then .LongFlagWithEqType
  else .LongFlagWithoutEqType

/-- std::string::find for a single character: index of the first occurrence,
or the string length when absent (the call sites only reach it when the
character is present, where std::string::find cannot return npos). -/
def strFind : Str → Char → Nat
  | [], _ => 0
  | c :: rest, ch => if c = ch then 0 else strFind rest ch + 1

/-- struct Value, from the constructors in arg-parse.cpp lines 390-428: the
constructors initialise str, _name, _description, _chooseList and
_isValueNeeded. The field isSet is modelled from the spec: the declaring
header arg-parse.h is missing, and spec section 3 states that a Value's isSet
starts false and becomes true only when text is bound from input. -/
structure Value where
  str : Str
  name : Str
  description : Str
  chooseList : List Str
  isValueNeeded : Bool
  isSet : Bool
deriving DecidableEq

/-- Value::Value(defaultValue, name, description) (arg-parse.cpp lines
401-407): _isValueNeeded is initialised to defaultValue.empty(). -/
def Value.mkV (defaultValue name description : Str) : Value :=
  { str := defaultValue
    name := name
    description := description
    chooseList := []
    isValueNeeded := defaultValue.isEmpty
    isSet := false }

/-- Value::Value(defaultValue, chooseList, name, description) (arg-parse.cpp
lines 409-414): delegates to the three-argument constructor, then copies the
choice list in order. -/
def Value.mkChoose (defaultValue : Str) (chooseList : List Str) (name description : Str) : Value :=
  { Value.mkV defaultValue name description with chooseList := chooseList }

/-- Default-constructed Value (all string arguments defaulted to ""). -/
def Value.mk0 : Value := Value.mkV [] [] []

/-- struct Arg (arg-parse.cpp lines 430-454); in C++, Arg derives from Value,
modelled by the `val` field. The field isDefined is modelled from the spec
(section 3: PositionalArg tracks whether it was bound during the parse); the
constructors leave it false. -/
structure Arg where
  val : Value
  isSet : Bool
  isArgNeeded : Bool
  isDefined : Bool
deriving DecidableEq

/-- Arg::Arg(name, description, isNeeded, defaultValue) (arg-parse.cpp lines
440-449): the Value base is built from defaultValue.str, name and
description, so the default's choice list is sliced away. -/
def Arg.mk4 (name description : Str) (isNeeded : Bool) (defaultValue : Value) : Arg :=
  { val := Value.mkV defaultValue.str name description
    isSet := false
    isArgNeeded := isNeeded
    isDefined := false }

/-- Arg::Arg(const Value&) (arg-parse.cpp lines 451-454). -/
def Arg.fromValue (v : Value) : Arg := Arg.mk4 [] [] false v

/-- Modelled from the spec: Arg::setArg is declared in the missing header
arg-parse.h and has no definition in arg-parse.cpp. Per spec sections 3 and
4.2, binding a positional stores the token text and marks the slot bound:
the text is set and isSet / isDefined become true; the declared name,
description and requiredness are unchanged. -/
def Arg.setArg (a : Arg) (s : Str) : Arg :=
  { a with
    val := { a.val with str := s, isSet := true }
    isSet := true
    isDefined := true }

/-- struct Flag (arg-parse.cpp lines 456-488). -/
structure Flag where
  isSet : Bool
  hasValue : Bool
  value : Value
  longFlag : Str
  shortFlag : Str
  description : Str
deriving DecidableEq

/-- Flag::Flag(lFlag, sFlag, dscrptn) (arg-parse.cpp lines 468-478). -/
def Flag.mk3 (lFlag sFlag dscrptn : Str) : Flag :=
  { isSet := false
    hasValue := false
    value := Value.mk0
    longFlag := lFlag
    shortFlag := sFlag
    description := dscrptn }

/-- Flag::Flag(lFlag, sFlag, dscrptn, definedValue) (arg-parse.cpp lines
480-488): delegates, then stores the value and sets hasValue. -/
def Flag.mkWithValue (lFlag sFlag dscrptn : Str) (definedValue : Value) : Flag :=
  { Flag.mk3 lFlag sFlag dscrptn with value := definedValue, hasValue := true }

/-- Default-constructed Flag (all alias strings empty): the invalid sentinel. -/
def Flag.mk0 : Flag := Flag.mk3 [] [] []

/-- ArgParse::Errors::Codes (arg-parse.hpp lines 194-200). -/
inductive ErrorCode
  | NoError
  | RequiredFlagValueMissing
  | RequiredArgumentMissing
  | ArgVIsEmpty
  | ArgCBiggerThanElementsOfArgV
deriving DecidableEq

/-- The tagged suspect reference carried by an error (General / Flag / Arg).
A flag suspect is identified by its owning key in the flag map, a positional
suspect by its index in the positional vector. -/
inductive Suspect
  | general
  | flagRef (key : Str)
  | argRef (idx : Nat)
deriving DecidableEq

/-- One recorded error: code, suspect reference and human-readable message
(arg-parse.cpp lines 366-382). -/
structure ArgError where
  code : ErrorCode
  suspect : Suspect
  message : Str
deriving DecidableEq

/-- The registry state of class ArgParse: the owned flag map `_flags`, the
non-owning alias tables `_longFlags` / `_shortFlags` (values are owning keys
of `_flags`, `none` models a null pointer), the positional vector `_args`,
the error list, options.programName.value, and the four bookkeeping booleans
set during parsing. -/
structure ArgParse where
  flags : List (Str × Flag)
  longFlags : List (Str × Option Str)
  shortFlags : List (Str × Option Str)
  args : List Arg
  errors : List ArgError
  programName : Str
  areThereAnyUndefinedArgs : Bool
  areThereAnyDefinedArgs : Bool
  areThereAnyUndefinedFlags : Bool
  areThereAnyDefinedFlags : Bool
deriving DecidableEq

/-- A freshly constructed registry with no options set: empty maps, empty
positional vector, no errors, empty program name. This models
ArgParse(OptionList{}) where readOptionValue finds no key in the empty option
list, so no option (including help-flag auto-registration) is activated and
no --help flag is added. -/
def ArgParse.init : ArgParse :=
  { flags := []
    longFlags := []
    shortFlags := []
    args := []
    errors := []
    programName := []
    areThereAnyUndefinedArgs := false
    areThereAnyDefinedArgs := false
    areThereAnyUndefinedFlags := false
    areThereAnyDefinedFlags := false }

/-- ArgParse::add(const Arg&) (arg-parse.cpp lines 69-73): append and return
the appended entry. -/
def ArgParse.addArg (ap : ArgParse) (arg : Arg) : Arg × ArgParse :=
  (arg, { ap with args := ap.args ++ [arg] })

/-- ArgParse::add(const Flag&, CallBackFunc) (arg-parse.cpp lines 75-94):
reject (returning the `_flags[""]` sentinel, which operator[] default-inserts)
a flag whose forms are both empty; otherwise store under the key
shortFlag ++ longFlag and refresh the two alias tables. -/
def ArgParse.addFlag (ap : ArgParse) (flag : Flag) : Flag × ArgParse :=
  let name := flag.shortFlag ++ flag.longFlag
  if name = [] then
    let pm := mapGetD ap.flags [] Flag.mk0
    (pm.1, { ap with flags := pm.2 })
  else
    let flags1 := mapInsert ap.flags name flag
    let lf := if flag.longFlag = [] then ap.longFlags
              else mapInsert ap.longFlags flag.longFlag (some name)
    let sf := if flag.shortFlag = [] then ap.shortFlags
              else mapInsert ap.shortFlags flag.shortFlag (some name)
    (flag, { ap with flags := flags1, longFlags := lf, shortFlags := sf })

/-- ArgParse::checkFlag (arg-parse.cpp lines 306-309). -/
def ArgParse.checkFlag (ap : ArgParse) (s : Str) : Bool :=
  (mapFind? ap.longFlags s).isSome || (mapFind? ap.shortFlags s).isSome

/-- ArgParse::operator[](const std::size_t&) (arg-parse.cpp lines 327-330):
`return _args[idx];` with no bounds check. Indexing the vector out of range
is undefined behaviour, modelled as `none`. -/
def ArgParse.getArg (ap : ArgParse) (idx : Nat) : Option Arg :=
  ap.args[idx]?

/-- Shared body of the ShortFlagType / ShortFlagsType cases of
ArgParse::operator[](const std::string&) (arg-parse.cpp lines 339-345):
if the short form is unknown, lazily register Flag("", s) and return it;
otherwise dereference the stored pointer (a stored null pointer, or a
dangling key, would be a crash: `none`). -/
def ArgParse.shortLookup (ap : ArgParse) (s : Str) : Option (Flag × ArgParse) :=
  match mapFind? ap.shortFlags s with
  | none => some (ap.addFlag (Flag.mk3 [] s []))
  | some none => none
  | some (some k) => (mapFind? ap.flags k).map (fun f => (f, ap))

/-- Shared body of the LongFlagWithEqType / LongFlagWithoutEqType cases of
ArgParse::operator[](const std::string&) (arg-parse.cpp lines 346-352). -/
def ArgParse.longLookup (ap : ArgParse) (s : Str) : Option (Flag × ArgParse) :=
  match mapFind? ap.longFlags s with
  | none => some (ap.addFlag (Flag.mk3 s [] []))
  | some none => none
  | some (some k) => (mapFind? ap.flags k).map (fun f => (f, ap))

/-- ArgParse::operator[](const std::string&) (arg-parse.cpp lines 332-359):
classify the name; truncate CombinedShortFlags names to their first two
characters and LongFlagWithValue names at the first '='; resolve through the
matching alias table, lazily registering unknown names. A name of positional
shape hits assert(false); with asserts disabled the switch breaks and the
function returns `_flags[""]`, default-inserting the sentinel. -/
def ArgParse.lookupFlag (ap : ArgParse) (idx : Str) : Option (Flag × ArgParse) :=
  match mapParamType idx with
  | .ArgType =>
    let pm := mapGetD ap.flags [] Flag.mk0
    some (pm.1, { ap with flags := pm.2 })
  | .ShortFlagsType => ap.shortLookup (idx.take 2)
  | .ShortFlagType => ap.shortLookup idx
  | .LongFlagWithEqType => ap.longLookup (idx.take (strFind idx '='))
  | .LongFlagWithoutEqType => ap.longLookup idx

/-- The required-argument counter of ArgParse::parse (arg-parse.cpp lines
141-145): an int counting declared positionals with _isArgNeeded. -/
def countRequired (args : List Arg) : Int :=
  args.foldl (fun n a => if a.isArgNeeded then n + 1 else n) 0

/-- The error-recording loop of ArgParse::parse (arg-parse.cpp lines
211-215): for i = requiredArgs down to 1, record RequiredArgumentMissing
with suspect &_args[_args.size() - i]. -/
def requiredErrors (args : List Arg) (req : Nat) : List ArgError :=
  (List.range req).map (fun j =>
    { code := .RequiredArgumentMissing
      suspect := .argRef (args.length - req + j)
      message := "Required argument missing!".toList })

/-- The entry guard of ArgParse::parse (arg-parse.cpp lines 131-134):
(argc < 1) || (!argv) || (!argv[0]). Returns `some true` when the guard
fires, `some false` when it passes, and `none` when argc is at least 1 but
the array has no first element, since reading argv[0] out of bounds is
undefined behaviour. -/
def emptyGuardCheck (argc : Int) (argv : Option (List (Option Str))) : Option Bool :=
  if argc < 1 then some true
  else
    match argv with
    | none => some true
    | some av =>
      match av.head? with
      | none => none
      | some a0 => some a0.isNone

/-- Reads a prefix of the argument array: `none` as an element is a null
char pointer, from which constructing std::string is undefined behaviour. -/
def optsAll : List (Option Str) → Option (List Str)
  | [] => some []
  | none :: _ => none
  | some a :: rest => (optsAll rest).map (fun l => a :: l)

/-- Reads argv[0 .. argc): the loop constructs std::string(argv_[adv]) for
every index below argc, so a missing entry or a null entry is undefined
behaviour, modelled as `none`. -/
def derefArgv (av : List (Option Str)) (argc : Nat) : Option (List Str) :=
  if av.length < argc then none else optsAll (av.take argc)

/-- The resolve-or-synthesize prefix of the long-flag case of the parse loop
(arg-parse.cpp lines 180-184): an unknown long name is registered via
add(Flag(paramStr)) and the undefined-flags bit is set, otherwise the
defined-flags bit is set. -/
def ArgParse.longFlagResolve (ap : ArgParse) (p : Str) : ArgParse :=
  if (mapFind? ap.longFlags p).isNone
  then { (ap.addFlag (Flag.mk3 p [] [])).2 with areThereAnyUndefinedFlags := true }
  else { ap with areThereAnyDefinedFlags := true }

/-- The long-flag body after resolution (arg-parse.cpp lines 186-202):
`Flag* flag = _longFlags[paramStr]` (default-inserting), `flag->isSet = true`,
then the value-attachment logic on valueStr `v`. The returned boolean records
whether `++adv` consumed an extra input slot. -/
def ArgParse.longFlagBind (ap1 : ArgParse) (req : Int) (c : Nat) (p v : Str) :
    Option (ArgParse × Int × Nat × Bool) :=
  let pm := mapGetD ap1.longFlags p none
  let ap2 := { ap1 with longFlags := pm.2 }
  match pm.1 with
  | none => none
  | some k =>
    match mapFind? ap2.flags k with
    | none => none
    | some f0 =>
      let ap3 := { ap2 with flags := mapUpdate ap2.flags k (fun f => { f with isSet := true }) }
      if f0.hasValue then
        if v = [] ∧ f0.value.isValueNeeded = false then some (ap3, req, c, false)
        else if f0.value.isValueNeeded = true ∧ mapParamType v ≠ .ArgType ∧ ap3.checkFlag v = true then
          some (ap3, req, c, false)
        else
          some ({ ap3 with flags := mapUpdate ap3.flags k (fun f => { f with value := { f.value with str := v } }) },
                req, c, true)
      else some (ap3, req, c, false)

/-- The LongFlagWithEqType / LongFlagWithoutEqType body of the parse loop
(arg-parse.cpp lines 179-204), after the '=' split. -/
def ArgParse.longFlagApply (ap : ArgParse) (req : Int) (c : Nat) (p v : Str) :
    Option (ArgParse × Int × Nat × Bool) :=
  (ap.longFlagResolve p).longFlagBind req c p v

/-- One iteration of the parse loop (arg-parse.cpp lines 148-209) on token
`p` with lookahead `v` (the next token, or "" when none): returns the new
state, required counter, argCount, and whether `++adv` consumed an extra
slot; `none` models a crash (null Flag* dereference on an undefined short
flag). -/
def ArgParse.parseStep (ap : ArgParse) (req : Int) (c : Nat) (p v : Str) :
    Option (ArgParse × Int × Nat × Bool) :=
  match mapParamType p with
  | .ArgType =>
    if c < ap.args.length then
      let a := ap.args.getD c (Arg.mk4 [] [] false Value.mk0)
      let req1 := if a.isArgNeeded then req - 1 else req
      some ({ ap with args := ap.args.set c (a.setArg p), areThereAnyDefinedArgs := true },
            req1, c + 1, false)
    else
      some ({ ap with args := ap.args ++ [Arg.mk4 [] [] false (Value.mkV p [] [])], areThereAnyUndefinedArgs := true },
            req, c + 1, false)
  | .ShortFlagType =>
    let pm := mapGetD ap.shortFlags p none
    match pm.1 with
    | none => none
    | some k =>
      match mapFind? ap.flags k with
      | none => none
      | some _ =>
        some ({ ap with shortFlags := pm.2, flags := mapUpdate ap.flags k (fun f => { f with isSet := true }) },
              req, c, false)
  | .ShortFlagsType => some (ap, req, c, false)
  | .LongFlagWithEqType =>
    let posEq := strFind p '='
    ap.longFlagApply req c (p.take posEq) (p.drop (posEq + 1))
  | .LongFlagWithoutEqType => ap.longFlagApply req c p v

/-- The parse loop (arg-parse.cpp lines 148-209): left to right over the
tokens after the program name; a step that consumed an extra slot skips the
next token, mirroring the extra ++adv. -/
def ArgParse.parseLoop : ArgParse → Int → Nat → List Str → Option (ArgParse × Int)
  | ap, req, _, [] => some (ap, req)
  | ap, req, c, p :: rest =>
    match ap.parseStep req c p (rest.headD []) with
    | none => none
    | some (ap1, req1, c1, extra) =>
      if extra then
        match rest with
        | [] => some (ap1, req1)
        | _ :: rest2 => ArgParse.parseLoop ap1 req1 c1 rest2
      else ArgParse.parseLoop ap1 req1 c1 rest

/-- Setting options.programName.value on the first parse (arg-parse.cpp
lines 137-139): only when it is still empty. -/
def ArgParse.setProgramName (ap : ArgParse) (a0 : Str) : ArgParse :=
  if ap.programName = [] then { ap with programName := a0 } else ap

/-- The middle of ArgParse::parse after the guard passes (arg-parse.cpp
lines 137-209): record the program name if not yet set, count the required
positionals, and run the loop over the tokens after the program name. -/
def ArgParse.loopPart (ap : ArgParse) (argc : Int) (argv : Option (List (Option Str))) :
    Option (ArgParse × Int) :=
  let av := argv.getD []
  let ap1 := ap.setProgramName ((av.head?.getD none).getD [])
  (derefArgv av argc.toNat).bind
    (fun tokens => ap1.parseLoop (countRequired ap1.args) 0 tokens.tail)

/-- The tail of ArgParse::parse (arg-parse.cpp lines 211-217): when the
required counter is non-zero, record one RequiredArgumentMissing per missing
slot and fail; otherwise succeed. -/
def ArgParse.finalize (ap : ArgParse) (req : Int) : Bool × ArgParse :=
  if req ≠ 0 then
    (false, { ap with errors := ap.errors ++ requiredErrors ap.args req.toNat })
  else (true, ap)

/-- The one error appended when the empty-argv guard fires (arg-parse.cpp
lines 131-134). -/
def argVEmptyError : ArgError :=
  { code := .ArgVIsEmpty
    suspect := .general
    message := "Wrong argument count: 0!".toList }

/-- ArgParse::parse (arg-parse.cpp lines 129-218). -/
def ArgParse.parse (ap : ArgParse) (argc : Int) (argv : Option (List (Option Str))) :
    Option (Bool × ArgParse) :=
  match emptyGuardCheck argc argv with
  | none => none
  | some true => some (false, { ap with errors := ap.errors ++ [argVEmptyError] })
  | some false => (ap.loopPart argc argv).map (fun r => ArgParse.finalize r.1 r.2)

/-- A sample registry: one declared required positional "pos" and the flag
"--out" declared with a required value (a Value with empty default, hence
_isValueNeeded = true). Built through the declaration calls add(Arg) and
add(Flag). -/
def sampleOutRegistry : ArgParse :=
  ((ArgParse.init.addArg (Arg.mk4 "pos".toList [] true Value.mk0)).2.addFlag
    (Flag.mkWithValue "--out".toList [] [] (Value.mkV [] "out-file".toList []))).2

/-- A sample registry with two declared required positionals. -/
def sampleTwoRequired : ArgParse :=
  ((ArgParse.init.addArg (Arg.mk4 "a".toList [] true Value.mk0)).2.addArg
    (Arg.mk4 "b".toList [] true Value.mk0)).2

/-- The state reached by parsing just a program name on a fresh registry. -/
def onlyProgState : ArgParse := { ArgParse.init with programName := "p".toList }

/-! Helper lemmas about the association-list maps. -/

theorem mapFind?_insert_self {α : Type} (m : List (Str × α)) (k : Str) (v : α) :
    mapFind? (mapInsert m k v) k = some v := by
  induction m with
  | nil => simp [mapInsert, mapFind?]
  | cons hd t ih =>
    obtain ⟨k', v'⟩ := hd
    by_cases hk : k' = k
    · subst hk
      simp [mapInsert, mapFind?]
    · simp [mapInsert, mapFind?, hk, ih]

theorem mapFind?_insert_ne {α : Type} (m : List (Str × α)) (k k' : Str) (v : α)
    (h : k' ≠ k) : mapFind? (mapInsert m k v) k' = mapFind? m k' := by
  induction m with
  | nil => simp [mapInsert, mapFind?, Ne.symm h]
  | cons hd t ih =>
    obtain ⟨k0, v0⟩ := hd
    by_cases hk : k0 = k
    · subst hk
      simp [mapInsert, mapFind?, Ne.symm h]
    · simp only [mapInsert, if_neg hk]
      by_cases hk' : k0 = k'
      · subst hk'
        simp [mapFind?]
      · simp [mapFind?, hk', ih]

theorem mapFind?_update_self {α : Type} (m : List (Str × α)) (k : Str) (g : α → α) :
    mapFind? (mapUpdate m k g) k = (mapFind? m k).map g := by
  induction m with
  | nil => simp [mapUpdate, mapFind?]
  | cons hd t ih =>
    obtain ⟨k0, v0⟩ := hd
    by_cases hk : k0 = k
    · subst hk
      simp [mapUpdate, mapFind?]
    · simp [mapUpdate, mapFind?, hk, ih]

theorem mapGetD_found {α : Type} (m : List (Str × α)) (k : Str) (d v : α)
    (h : mapFind? m k = some v) : mapGetD m k d = (v, m) := by
  simp [mapGetD, h]

theorem mapGetD_missing {α : Type} (m : List (Str × α)) (k : Str) (d : α)
    (h : mapFind? m k = none) : mapGetD m k d = (d, mapInsert m k d) := by
  simp [mapGetD, h]

/-! Helper lemmas about the '=' split of a LongFlagWithValue token. -/

theorem strFind_append_eq (l v : Str) (h : '=' ∉ l) :
    strFind (l ++ '=' :: v) '=' = l.length := by
  induction l with
  | nil => simp [strFind]
  | cons a t ih =>
    have ha : a ≠ '=' := by
      intro hh
      exact h (by simp [hh])
    have ht : '=' ∉ t := fun hm => h (List.mem_cons_of_mem _ hm)
    simp [strFind, ha, ih ht]

theorem take_append_left (l v : Str) (c : Char) :
    (l ++ c :: v).take l.length = l := by
  induction l with
  | nil => simp
  | cons a t ih => simp [ih]

theorem drop_append_succ (l v : Str) (c : Char) :
    (l ++ c :: v).drop (l.length + 1) = v := by
  induction l with
  | nil => simp
  | cons a t ih => simp [ih]

/-! Projection lemmas: parts of the state untouched by an operation. -/

theorem setProgramName_flags (ap : ArgParse) (a0 : Str) :
    (ap.setProgramName a0).flags = ap.flags := by
  unfold ArgParse.setProgramName
  split <;> rfl

theorem setProgramName_longFlags (ap : ArgParse) (a0 : Str) :
    (ap.setProgramName a0).longFlags = ap.longFlags := by
  unfold ArgParse.setProgramName
  split <;> rfl

theorem setProgramName_shortFlags (ap : ArgParse) (a0 : Str) :
    (ap.setProgramName a0).shortFlags = ap.shortFlags := by
  unfold ArgParse.setProgramName
  split <;> rfl

theorem setProgramName_args (ap : ArgParse) (a0 : Str) :
    (ap.setProgramName a0).args = ap.args := by
  unfold ArgParse.setProgramName
  split <;> rfl

theorem setProgramName_errors (ap : ArgParse) (a0 : Str) :
    (ap.setProgramName a0).errors = ap.errors := by
  unfold ArgParse.setProgramName
  split <;> rfl

theorem finalize_flags (ap : ArgParse) (req : Int) :
    (ArgParse.finalize ap req).2.flags = ap.flags := by
  unfold ArgParse.finalize
  split <;> rfl

theorem addFlag_errors (ap : ArgParse) (f : Flag) :
    (ap.addFlag f).2.errors = ap.errors := by
  unfold ArgParse.addFlag
  by_cases h : f.shortFlag ++ f.longFlag = []
  · simp [h]
  · simp [h]

/-! Characterizations of single parse-loop steps. -/

theorem parseStep_short_missing (ap : ArgParse) (req : Int) (c : Nat) (p v : Str)
    (hp : mapParamType p = .ShortFlagType)
    (hs : mapFind? ap.shortFlags p = none) :
    ap.parseStep req c p v = none := by
  simp [ArgParse.parseStep, hp, mapGetD_missing _ _ _ hs]

theorem parseStep_short_found (ap : ArgParse) (req : Int) (c : Nat) (p v k : Str) (f : Flag)
    (hp : mapParamType p = .ShortFlagType)
    (hs : mapFind? ap.shortFlags p = some (some k))
    (hf : mapFind? ap.flags k = some f) :
    ap.parseStep req c p v =
      some ({ ap with flags := mapUpdate ap.flags k (fun g => { g with isSet := true }) },
            req, c, false) := by
  simp [ArgParse.parseStep, hp, mapGetD_found _ _ _ _ hs, hf]

theorem longFlagApply_found_noval (ap : ArgParse) (req : Int) (c : Nat) (p v k : Str) (f : Flag)
    (hk : mapFind? ap.longFlags p = some (some k))
    (hf : mapFind? ap.flags k = some f)
    (hnv : f.hasValue = false) :
    ap.longFlagApply req c p v =
      some ({ ap with
              flags := mapUpdate ap.flags k (fun g => { g with isSet := true })
              areThereAnyDefinedFlags := true }, req, c, false) := by
  simp [ArgParse.longFlagApply, ArgParse.longFlagResolve, ArgParse.longFlagBind, hk,
    mapGetD_found _ _ _ _ hk, hf, hnv]

theorem longFlagApply_found_store (ap : ArgParse) (req : Int) (c : Nat) (p v k : Str) (f : Flag)
    (hk : mapFind? ap.longFlags p = some (some k))
    (hf : mapFind? ap.flags k = some f)
    (hhv : f.hasValue = true)
    (hneed : f.value.isValueNeeded = true)
    (hv : mapParamType v = .ArgType) :
    ap.longFlagApply req c p v =
      some ({ ap with
              flags := mapUpdate (mapUpdate ap.flags k (fun g => { g with isSet := true })) k
                (fun g => { g with value := { g.value with str := v } })
              areThereAnyDefinedFlags := true }, req, c, true) := by
  simp [ArgParse.longFlagApply, ArgParse.longFlagResolve, ArgParse.longFlagBind, hk,
    mapGetD_found _ _ _ _ hk, hf, hhv, hneed, hv]

theorem parseStep_long_noval (ap : ArgParse) (req : Int) (c : Nat) (p v k : Str) (f : Flag)
    (hp : mapParamType p = .LongFlagWithoutEqType)
    (hk : mapFind? ap.longFlags p = some (some k))
    (hf : mapFind? ap.flags k = some f)
    (hnv : f.hasValue = false) :
    ap.parseStep req c p v =
      some ({ ap with
              flags := mapUpdate ap.flags k (fun g => { g with isSet := true })
              areThereAnyDefinedFlags := true }, req, c, false) := by
  simp only [ArgParse.parseStep, hp]
  exact longFlagApply_found_noval ap req c p v k f hk hf hnv

theorem parseStep_long_store (ap : ArgParse) (req : Int) (c : Nat) (p v k : Str) (f : Flag)
    (hp : mapParamType p = .LongFlagWithoutEqType)
    (hk : mapFind? ap.longFlags p = some (some k))
    (hf : mapFind? ap.flags k = some f)
    (hhv : f.hasValue = true)
    (hneed : f.value.isValueNeeded = true)
    (hv : mapParamType v = .ArgType) :
    ap.parseStep req c p v =
      some ({ ap with
              flags := mapUpdate (mapUpdate ap.flags k (fun g => { g with isSet := true })) k
                (fun g => { g with value := { g.value with str := v } })
              areThereAnyDefinedFlags := true }, req, c, true) := by
  simp only [ArgParse.parseStep, hp]
  exact longFlagApply_found_store ap req c p v k f hk hf hhv hneed hv

theorem parseStep_longEq_store (ap : ArgParse) (req : Int) (c : Nat) (l v w k : Str) (f : Flag)
    (hp : mapParamType (l ++ '=' :: v) = .LongFlagWithEqType)
    (hne : '=' ∉ l)
    (hk : mapFind? ap.longFlags l = some (some k))
    (hf : mapFind? ap.flags k = some f)
    (hhv : f.hasValue = true)
    (hneed : f.value.isValueNeeded = true)
    (hv : mapParamType v = .ArgType) :
    ap.parseStep req c (l ++ '=' :: v) w =
      some ({ ap with
              flags := mapUpdate (mapUpdate ap.flags k (fun g => { g with isSet := true })) k
                (fun g => { g with value := { g.value with str := v } })
              areThereAnyDefinedFlags := true }, req, c, true) := by
  simp only [ArgParse.parseStep, hp, strFind_append_eq l v hne,
    take_append_left l v '=', drop_append_succ l v '=']
  exact longFlagApply_found_store ap req c l v k f hk hf hhv hneed hv

/-! The parse loop never records an error (all addError calls of
ArgParse::parse are outside the token loop). -/

theorem longFlagResolve_errors (ap : ArgParse) (p : Str) :
    (ap.longFlagResolve p).errors = ap.errors := by
  unfold ArgParse.longFlagResolve
  split
  · exact addFlag_errors ap (Flag.mk3 p [] [])
  · rfl

theorem longFlagBind_errors (ap1 : ArgParse) (req : Int) (c : Nat) (p v : Str)
    (r : ArgParse × Int × Nat × Bool) (h : ap1.longFlagBind req c p v = some r) :
    r.1.errors = ap1.errors := by
  rcases hpm : (mapGetD ap1.longFlags p none).1 with _ | k
  · simp only [ArgParse.longFlagBind, hpm] at h
    exact Option.noConfusion h
  · rcases hf : mapFind? ap1.flags k with _ | f0
    · simp only [ArgParse.longFlagBind, hpm, hf] at h
      exact Option.noConfusion h
    · simp only [ArgParse.longFlagBind, hpm, hf] at h
      split at h
      · split at h
        · cases h
          rfl
        · split at h
          · cases h
            rfl
          · cases h
            rfl
      · cases h
        rfl

theorem parseStep_errors (ap : ArgParse) (req : Int) (c : Nat) (p v : Str)
    (r : ArgParse × Int × Nat × Bool) (h : ap.parseStep req c p v = some r) :
    r.1.errors = ap.errors := by
  cases hty : mapParamType p
  case ArgType =>
    simp only [ArgParse.parseStep, hty] at h
    split at h
    · cases h
      rfl
    · cases h
      rfl
  case ShortFlagType =>
    rcases hpm : (mapGetD ap.shortFlags p none).1 with _ | k
    · simp only [ArgParse.parseStep, hty, hpm] at h
      exact Option.noConfusion h
    · rcases hf : mapFind? ap.flags k with _ | f0
      · simp only [ArgParse.parseStep, hty, hpm, hf] at h
        exact Option.noConfusion h
      · simp only [ArgParse.parseStep, hty, hpm, hf] at h
        cases h
        rfl
  case ShortFlagsType =>
    simp only [ArgParse.parseStep, hty] at h
    cases h
    rfl
  case LongFlagWithEqType =>
    simp only [ArgParse.parseStep, hty, ArgParse.longFlagApply] at h
    exact (longFlagBind_errors _ _ _ _ _ _ h).trans (longFlagResolve_errors _ _)
  case LongFlagWithoutEqType =>
    simp only [ArgParse.parseStep, hty, ArgParse.longFlagApply] at h
    exact (longFlagBind_errors _ _ _ _ _ _ h).trans (longFlagResolve_errors _ _)

theorem parseLoop_errors_aux (n : Nat) :
    ∀ ts : List Str, ts.length ≤ n → ∀ ap req c ap' req',
      ArgParse.parseLoop ap req c ts = some (ap', req') → ap'.errors = ap.errors := by
  induction n with
  | zero =>
    intro ts hts ap req c ap' req' h
    have hnil : ts = [] := List.length_eq_zero.mp (Nat.le_zero.mp hts)
    subst hnil
    simp only [ArgParse.parseLoop, Option.some.injEq, Prod.mk.injEq] at h
    rw [← h.1]
  | succ n ih =>
    intro ts hts ap req c ap' req' h
    cases ts with
    | nil =>
      simp only [ArgParse.parseLoop, Option.some.injEq, Prod.mk.injEq] at h
      rw [← h.1]
    | cons p rest =>
      simp only [ArgParse.parseLoop] at h
      rcases hstep : ap.parseStep req c p (rest.headD []) with _ | ⟨ap1, req1, c1, extra⟩ <;>
        simp only [hstep] at h
      · exact Option.noConfusion h
      · have herr1 : ap1.errors = ap.errors :=
          parseStep_errors ap req c p (rest.headD []) _ hstep
        cases extra with
        | false =>
          rw [if_neg (by simp)] at h
          have hlen : rest.length ≤ n := by
            simp only [List.length_cons] at hts
            omega
          exact (ih rest hlen ap1 req1 c1 ap' req' h).trans herr1
        | true =>
          rw [if_pos rfl] at h
          cases rest with
          | nil =>
            simp only [Option.some.injEq, Prod.mk.injEq] at h
            rw [← h.1]
            exact herr1
          | cons q rest2 =>
            have hlen : rest2.length ≤ n := by
              simp only [List.length_cons] at hts
              omega
            exact (ih rest2 hlen ap1 req1 c1 ap' req' h).trans herr1

theorem parseLoop_errors (ts : List Str) (ap : ArgParse) (req : Int) (c : Nat)
    (ap' : ArgParse) (req' : Int) (h : ArgParse.parseLoop ap req c ts = some (ap', req')) :
    ap'.errors = ap.errors :=
  parseLoop_errors_aux ts.length ts le_rfl ap req c ap' req' h

theorem loopPart_errors (ap : ArgParse) (argc : Int) (argv : Option (List (Option Str)))
    (ap2 : ArgParse) (req' : Int) (h : ArgParse.loopPart ap argc argv = some (ap2, req')) :
    ap2.errors = ap.errors := by
  unfold ArgParse.loopPart at h
  dsimp only at h
  rcases hd : derefArgv (argv.getD []) argc.toNat with _ | tokens <;> rw [hd] at h
  · exact Option.noConfusion h
  · simp only [Option.some_bind] at h
    exact (parseLoop_errors _ _ _ _ _ _ h).trans (setProgramName_errors _ _)

/-! Evaluating derefArgv on a fully present argument vector. -/

theorem optsAll_map_some (l : List Str) : optsAll (l.map some) = some l := by
  induction l with
  | nil => rfl
  | cons a t ih => simp [optsAll, ih]

theorem derefArgv_map_some (l : List Str) : derefArgv (l.map some) l.length = some l := by
  unfold derefArgv
  rw [if_neg (by simp)]
  rw [show (l.map some).take l.length = l.map some by
    rw [← List.length_map l some]
    exact List.take_length _]
  exact optsAll_map_some l

/-! The required-argument counter. -/

theorem countRequired_eq_countP (args : List Arg) :
    countRequired args = (args.countP (fun a => a.isArgNeeded) : Int) := by
  have hgen : ∀ (l : List Arg) (n : Int),
      l.foldl (fun m a => if a.isArgNeeded then m + 1 else m) n =
        n + (l.countP (fun a => a.isArgNeeded) : Int) := by
    intro l
    induction l with
    | nil =>
      intro n
      simp [List.countP_nil]
    | cons a t ih =>
      intro n
      by_cases ha : a.isArgNeeded
      · simp only [List.foldl_cons, if_pos ha, ih, List.countP_cons, ha, if_pos]
        push_cast
        ring
      · simp only [List.foldl_cons, if_neg ha, ih, List.countP_cons]
        simp [ha]
  simpa [countRequired] using hgen args 0

theorem countRequired_all (args : List Arg) (h : ∀ a ∈ args, a.isArgNeeded = true) :
    countRequired args = (args.length : Int) := by
  rw [countRequired_eq_countP, List.countP_eq_length.mpr h]

/-! The parse loop on a purely positional token sequence that underfills the
declared positionals: every token binds the next declared slot in order and
decrements the required counter. -/

theorem parseLoop_allPos (ts : List Str) : ∀ (ap : ArgParse) (req : Int) (c : Nat),
    (∀ t ∈ ts, mapParamType t = .ArgType) →
    (∀ a ∈ ap.args, a.isArgNeeded = true) →
    c + ts.length ≤ ap.args.length →
    ∃ ap', ArgParse.parseLoop ap req c ts = some (ap', req - ts.length) ∧
      ap'.args.length = ap.args.length ∧
      ap'.errors = ap.errors ∧
      ap'.args.drop (c + ts.length) = ap.args.drop (c + ts.length) ∧
      (∀ a ∈ ap'.args, a.isArgNeeded = true) := by
  induction ts with
  | nil =>
    intro ap req c _ hneed _
    exact ⟨ap, by simp [ArgParse.parseLoop], rfl, rfl, rfl, hneed⟩
  | cons p rest ih =>
    intro ap req c hts hneed hlen
    have hp : mapParamType p = .ArgType := hts p (List.mem_cons_self _ _)
    have hc : c < ap.args.length := by
      simp only [List.length_cons] at hlen
      omega
    have ha : (ap.args.getD c (Arg.mk4 [] [] false Value.mk0)).isArgNeeded = true := by
      rw [List.getD_eq_getElem _ _ hc]
      exact hneed _ (List.getElem_mem hc)
    have hstep : ap.parseStep req c p (rest.headD []) =
        some ({ ap with
                args := ap.args.set c ((ap.args.getD c (Arg.mk4 [] [] false Value.mk0)).setArg p)
                areThereAnyDefinedArgs := true }, req - 1, c + 1, false) := by
      simp only [ArgParse.parseStep, hp]
      rw [if_pos hc, ha]
      simp
    obtain ⟨ap', hloop, hlen', herr', hdrop', hneed'⟩ :=
      ih { ap with
           args := ap.args.set c ((ap.args.getD c (Arg.mk4 [] [] false Value.mk0)).setArg p)
           areThereAnyDefinedArgs := true }
        (req - 1) (c + 1)
        (fun t ht => hts t (List.mem_cons_of_mem _ ht))
        (by
          intro a hma
          rcases List.mem_or_eq_of_mem_set hma with hin | heq
          · exact hneed a hin
          · rw [heq]
            exact ha)
        (by
          simp only [List.length_set, List.length_cons] at hlen ⊢
          omega)
    refine ⟨ap', ?_, ?_, ?_, ?_, hneed'⟩
    · simp only [ArgParse.parseLoop, hstep]
      rw [if_neg (by simp)]
      rw [hloop]
      simp only [List.length_cons]
      push_cast
      ring_nf
    · rw [hlen']
      simp [List.length_set]
    · exact herr'
    · have hidx : c + (p :: rest).length = c + 1 + rest.length := by
        simp only [List.length_cons]
        omega
      rw [hidx, hdrop']
      rw [List.drop_set]
      rw [if_pos (by omega)]

/-! Claim theorems. -/

/-- C1: for every non-empty token, the classifier maps it to exactly one of
the five shapes as specified: a token of length 1, or not starting with '-',
or exactly "--" is Positional (ArgType); a token starting with '-' of length
2 (other than "--") is ShortFlag; a token starting with '-' but not "--" of
length > 2 is CombinedShortFlags; a token starting with "--" of length > 2
containing '=' is LongFlagWithValue; one without '=' is LongFlagWithoutValue. -/
theorem C1_classifier (t : Str) (h : t ≠ []) :
    (mapParamType t = .ArgType ↔ (t.length = 1 ∨ t.head? ≠ some '-' ∨ t = ['-', '-']))
    ∧ (mapParamType t = .ShortFlagType ↔ (t.head? = some '-' ∧ t.length = 2 ∧ t ≠ ['-', '-']))
    ∧ (mapParamType t = .ShortFlagsType ↔
        (t.head? = some '-' ∧ t.take 2 ≠ ['-', '-'] ∧ 2 < t.length))
    ∧ (mapParamType t = .LongFlagWithEqType ↔ (t.take 2 = ['-', '-'] ∧ 2 < t.length ∧ '=' ∈ t))
    ∧ (mapParamType t = .LongFlagWithoutEqType ↔
        (t.take 2 = ['-', '-'] ∧ 2 < t.length ∧ '=' ∉ t)) := by
  match t with
  | [] => exact absurd rfl h
  | [a] => simp [mapParamType]
  | a :: b :: ts =>
    by_cases ha : a = '-'
    · subst ha
      by_cases hb : b = '-'
      · subst hb
        cases ts with
        | nil => simp [mapParamType]
        | cons cc ts2 =>
          have hlen3 : 2 < ('-' :: '-' :: cc :: ts2 : Str).length := by
            simp only [List.length_cons]
            omega
          by_cases he : '=' ∈ ('-' :: '-' :: cc :: ts2 : Str) <;>
            simp [mapParamType, he, hlen3]
      · cases ts with
        | nil => simp [mapParamType, hb]
        | cons cc ts2 =>
          have hlen3 : 2 < ('-' :: b :: cc :: ts2 : Str).length := by
            simp only [List.length_cons]
            omega
          simp [mapParamType, hb, hlen3]
    · simp [mapParamType, ha]

/-- Witness for C1: concrete classifications obtained through the theorem. -/
theorem C1_classifier_witness :
    mapParamType "-x".toList = .ShortFlagType
    ∧ mapParamType "--flag=v".toList = .LongFlagWithEqType := by
  constructor
  · exact ((C1_classifier "-x".toList (by decide)).2.1).mpr (by decide)
  · exact ((C1_classifier "--flag=v".toList (by decide)).2.2.2.1).mpr (by decide)

/-- C4 (code evaluated at the failing input): positional lookup by an
out-of-range index does not return a sentinel; `return _args[idx]` indexes
the vector with no bounds check, which is out-of-range undefined behaviour,
modelled as `none`. On a registry with no declared positionals, index 0
already faults. -/
theorem C4_out_of_range_fault : ArgParse.init.getArg 0 = none := rfl

/-- C6: a parse call with a zero (or negative) token count, an absent token
array, or an absent first element fails, records exactly one ArgVIsEmpty
error, and mutates no state other than the error list: the result state is
the input state with the single error appended, so no definition is added or
changed and the program name is not set; the guard runs before any
classification. -/
theorem C6_empty_argv (ap : ArgParse) (argc : Int) (argv : Option (List (Option Str)))
    (h : argc < 1 ∨ argv = none ∨ (∃ av, argv = some av ∧ av.head? = some none)) :
    ap.parse argc argv = some (false, { ap with errors := ap.errors ++ [argVEmptyError] }) := by
  have hg : emptyGuardCheck argc argv = some true := by
    rcases h with h1 | h2 | ⟨av, hav, hhd⟩
    · simp [emptyGuardCheck, h1]
    · subst h2
      by_cases h1 : argc < 1 <;> simp [emptyGuardCheck, h1]
    · subst hav
      by_cases h1 : argc < 1 <;> simp [emptyGuardCheck, h1, hhd]
  unfold ArgParse.parse
  rw [hg]

/-- Witness for C6: calling parse with argc = 0 on a fresh registry. -/
theorem C6_empty_argv_witness :
    ArgParse.init.parse 0 (some []) =
      some (false, { ArgParse.init with errors := [argVEmptyError] }) := by
  have h := C6_empty_argv ArgParse.init 0 (some []) (Or.inl (by decide))
  simpa using h

/-- C10: a Value constructed from a default string (through either
constructor) is marked as needed exactly when the default string is empty;
hence a value with a non-empty default is always optional and no constructor
produces a required value carrying a non-empty default. -/
theorem C10_value_required_iff_empty_default (d n dsc : Str) (cl : List Str) :
    ((Value.mkV d n dsc).isValueNeeded = true ↔ d = [])
    ∧ ((Value.mkChoose d cl n dsc).isValueNeeded = true ↔ d = []) := by
  constructor <;> simp [Value.mkV, Value.mkChoose]


/-- C2: with N declared required positionals and an input supplying only
M < N positional tokens, parse returns failure and records exactly N - M
RequiredArgumentMissing errors, referencing the trailing unbound positional
definitions (indices M .. N-1, which the loop left untouched). -/
theorem C2_required_missing (ap : ArgParse) (prog : Str) (ts : List Str)
    (hneed : ∀ a ∈ ap.args, a.isArgNeeded = true)
    (hpos : ∀ t ∈ ts, mapParamType t = .ArgType)
    (hlt : ts.length < ap.args.length)
    (herr : ap.errors = []) :
    ∃ ap', ap.parse ((prog :: ts).length : Int) (some ((prog :: ts).map some)) = some (false, ap')
      ∧ ap'.errors.length = ap.args.length - ts.length
      ∧ (∀ e ∈ ap'.errors, e.code = .RequiredArgumentMissing)
      ∧ ap'.errors = requiredErrors ap'.args (ap.args.length - ts.length)
      ∧ (∀ e ∈ ap'.errors, ∃ i, e.suspect = .argRef i ∧ ts.length ≤ i ∧ i < ap.args.length)
      ∧ ap'.args.length = ap.args.length
      ∧ ap'.args.drop ts.length = ap.args.drop ts.length := by
  have hg : emptyGuardCheck ((prog :: ts).length : Int) (some ((prog :: ts).map some)) =
      some false := by
    unfold emptyGuardCheck
    rw [if_neg (by simp only [List.length_cons]; push_cast; omega)]
    simp
  obtain ⟨ap2, hloop, hlen2, herr2, hdrop2, _⟩ :=
    parseLoop_allPos ts (ap.setProgramName prog) ((ap.args.length : Int)) 0 hpos
      (by rw [setProgramName_args]; exact hneed)
      (by rw [setProgramName_args]; omega)
  have hlen2' : ap2.args.length = ap.args.length := by
    rw [hlen2, setProgramName_args]
  have herr2' : ap2.errors = [] := by
    rw [herr2, setProgramName_errors, herr]
  have hlp : ArgParse.loopPart ap ((prog :: ts).length : Int) (some ((prog :: ts).map some)) =
      some (ap2, (ap.args.length : Int) - ts.length) := by
    unfold ArgParse.loopPart
    dsimp only
    rw [show (((prog :: ts).length : Int)).toNat = (prog :: ts).length from by omega]
    simp only [Option.getD_some, List.map_cons, List.head?_cons]
    rw [show derefArgv (some prog :: List.map some ts) (prog :: ts).length = some (prog :: ts) from by
      have hd := derefArgv_map_some (prog :: ts)
      simpa using hd]
    simp only [Option.some_bind, List.tail_cons]
    rw [show countRequired (ap.setProgramName prog).args = ((ap.args.length : Int)) from by
      rw [setProgramName_args]
      exact countRequired_all ap.args hneed]
    exact hloop
  have hfin : ArgParse.finalize ap2 ((ap.args.length : Int) - ts.length) =
      (false, { ap2 with errors := ap2.errors ++ requiredErrors ap2.args (ap.args.length - ts.length) }) := by
    unfold ArgParse.finalize
    rw [if_pos (by omega)]
    rw [show ((ap.args.length : Int) - ts.length).toNat = ap.args.length - ts.length from by
      omega]
  have hparse : ap.parse ((prog :: ts).length : Int) (some ((prog :: ts).map some)) =
      some (false, { ap2 with errors := ap2.errors ++ requiredErrors ap2.args (ap.args.length - ts.length) }) := by
    unfold ArgParse.parse
    rw [hg]
    dsimp only
    rw [hlp]
    simp only [Option.map_some']
    rw [hfin]
  have herrs : ({ ap2 with errors := ap2.errors ++ requiredErrors ap2.args (ap.args.length - ts.length) } : ArgParse).errors =
      requiredErrors ap2.args (ap.args.length - ts.length) := by
    simp [herr2']
  refine ⟨_, hparse, ?_, ?_, ?_, ?_, ?_, ?_⟩
  · rw [herrs]
    simp [requiredErrors]
  · rw [herrs]
    intro e he
    simp only [requiredErrors, List.mem_map, List.mem_range] at he
    rcases he with ⟨j, _, rfl⟩
    rfl
  · exact herrs
  · rw [herrs]
    intro e he
    simp only [requiredErrors, List.mem_map, List.mem_range] at he
    rcases he with ⟨j, hj, rfl⟩
    exact ⟨ap2.args.length - (ap.args.length - ts.length) + j, rfl, by omega, by omega⟩
  · exact hlen2'
  · have h0 : ap2.args.drop (0 + ts.length) = (ap.setProgramName prog).args.drop (0 + ts.length) :=
      hdrop2
    rw [Nat.zero_add, setProgramName_args] at h0
    exact h0

/-- Witness for C2: two declared required positionals, input supplying one
positional token. -/
theorem C2_required_missing_witness :
    ∃ ap', sampleTwoRequired.parse (("prog".toList :: ["x".toList]).length : Int)
        (some (("prog".toList :: ["x".toList]).map some)) = some (false, ap')
      ∧ ap'.errors.length = sampleTwoRequired.args.length - ["x".toList].length
      ∧ (∀ e ∈ ap'.errors, e.code = .RequiredArgumentMissing)
      ∧ ap'.errors = requiredErrors ap'.args (sampleTwoRequired.args.length - ["x".toList].length)
      ∧ (∀ e ∈ ap'.errors, ∃ i, e.suspect = .argRef i ∧ ["x".toList].length ≤ i ∧
          i < sampleTwoRequired.args.length)
      ∧ ap'.args.length = sampleTwoRequired.args.length
      ∧ ap'.args.drop ["x".toList].length = sampleTwoRequired.args.drop ["x".toList].length :=
  C2_required_missing sampleTwoRequired "prog".toList ["x".toList]
    (by decide) (by decide) (by decide) (by decide)

/-- C5 counterexample: parsing a ShortFlag token whose short form was never
defined does not synthesize an undefined entry; `_shortFlags[paramStr]`
default-inserts a null Flag pointer and `flag->isSet = true` dereferences
it — an invalid access, modelled as `none`. -/
theorem C5_counterexample :
    ArgParse.init.parse 2 (some [some "p".toList, some "-z".toList]) = none := rfl

/-- C5 as amended: a ShortFlag token whose short form is defined sets that
definition's isSet and consumes no value token (the loop continues on the
remaining tokens with the same cursor and required counter); a ShortFlag
token whose short form is undefined causes a null-pointer dereference (the
map lookup inserts a null entry) instead of synthesizing a definition. -/
theorem C5_amended_short_flag (ap : ArgParse) (req : Int) (c : Nat) (p : Str) (rest : List Str)
    (hp : mapParamType p = .ShortFlagType) :
    (mapFind? ap.shortFlags p = none → ArgParse.parseLoop ap req c (p :: rest) = none)
    ∧ (∀ k f, mapFind? ap.shortFlags p = some (some k) → mapFind? ap.flags k = some f →
        ArgParse.parseLoop ap req c (p :: rest) =
          ArgParse.parseLoop
            { ap with flags := mapUpdate ap.flags k (fun g => { g with isSet := true }) }
            req c rest) := by
  constructor
  · intro hs
    simp only [ArgParse.parseLoop, parseStep_short_missing ap req c p (rest.headD []) hp hs]
  · intro k f hs hf
    simp only [ArgParse.parseLoop, parseStep_short_found ap req c p (rest.headD []) k f hp hs hf]
    rw [if_neg (by simp)]

/-- Witness for C5's amended statement, at the undefined short flag "-z" on a
fresh registry. -/
theorem C5_amended_short_flag_witness :
    ArgParse.parseLoop ArgParse.init 0 0 ["-z".toList] = none :=
  (C5_amended_short_flag ArgParse.init 0 0 "-z".toList [] (by decide)).1 (by decide)

/-- C3 counterexample: on a registry with a required positional "pos" and a
flag "--out" declared with a required value, parsing
["prog", "--out=result.txt", "x"] stores "result.txt" in the flag's value
text and sets the flag's isSet, but the value's isSet stays false and the
loop also consumes the token "x" (the fall-through executes ++adv), so the
required positional stays unbound and parse fails with one
RequiredArgumentMissing error — refuting both "consumes exactly one token"
and "sets the value's isSet". -/
theorem C3_counterexample :
    (sampleOutRegistry.parse 3
        (some [some "prog".toList, some "--out=result.txt".toList, some "x".toList])).map
      (fun r => (r.1,
        (mapFind? r.2.flags "--out".toList).map (fun f => (f.value.str, f.value.isSet, f.isSet)),
        r.2.errors.length,
        r.2.args.map (fun a => a.isDefined))) =
      some (false, some ("result.txt".toList, false, true), 1, [false]) := by
  rfl

/-- C3 as amended: for a flag declared with a required value, the token
l ++ "=" ++ v splits at the first '=', stores v in the flag's Value text,
sets the flag's isSet, leaves the value's isSet unchanged, and consumes the
following token as well (the fall-through ++adv advances the cursor an extra
slot); the two-token form l, v binds the same state while consuming two
tokens: both inputs continue the loop in the identical state ap'. -/
theorem C3_amended_long_value (ap : ArgParse) (req : Int) (c : Nat) (l v q : Str)
    (rest : List Str) (k : Str) (f : Flag)
    (hl : mapParamType l = .LongFlagWithoutEqType)
    (heq : mapParamType (l ++ '=' :: v) = .LongFlagWithEqType)
    (hne : '=' ∉ l)
    (hk : mapFind? ap.longFlags l = some (some k))
    (hf : mapFind? ap.flags k = some f)
    (hhv : f.hasValue = true)
    (hneed : f.value.isValueNeeded = true)
    (hv : mapParamType v = .ArgType) :
    ∃ ap', ArgParse.parseLoop ap req c ((l ++ '=' :: v) :: q :: rest) =
        ArgParse.parseLoop ap' req c rest
      ∧ ArgParse.parseLoop ap req c (l :: v :: rest) = ArgParse.parseLoop ap' req c rest
      ∧ ap'.args = ap.args
      ∧ ap'.errors = ap.errors
      ∧ mapFind? ap'.flags k = some { f with isSet := true, value := { f.value with str := v } }
      ∧ (mapFind? ap'.flags k).map (fun g => g.value.isSet) = some f.value.isSet := by
  refine ⟨{ ap with
            flags := mapUpdate (mapUpdate ap.flags k (fun g => { g with isSet := true })) k
              (fun g => { g with value := { g.value with str := v } })
            areThereAnyDefinedFlags := true }, ?_, ?_, rfl, rfl, ?_, ?_⟩
  · simp only [ArgParse.parseLoop, List.headD_cons,
      parseStep_longEq_store ap req c l v q k f heq hne hk hf hhv hneed hv]
    simp
  · simp only [ArgParse.parseLoop, List.headD_cons,
      parseStep_long_store ap req c l v k f hl hk hf hhv hneed hv]
    simp
  · rw [mapFind?_update_self, mapFind?_update_self, hf]
    rfl
  · rw [mapFind?_update_self, mapFind?_update_self, hf]
    rfl

/-- Witness for C3's amended statement at the concrete registry and tokens
of the claim. -/
theorem C3_amended_long_value_witness :
    ∃ ap', ArgParse.parseLoop sampleOutRegistry 1 0
        (("--out".toList ++ '=' :: "result.txt".toList) :: "x".toList :: []) =
        ArgParse.parseLoop ap' 1 0 []
      ∧ ArgParse.parseLoop sampleOutRegistry 1 0
          ("--out".toList :: "result.txt".toList :: []) = ArgParse.parseLoop ap' 1 0 []
      ∧ ap'.args = sampleOutRegistry.args
      ∧ ap'.errors = sampleOutRegistry.errors
      ∧ mapFind? ap'.flags "--out".toList =
          some { Flag.mkWithValue "--out".toList [] [] (Value.mkV [] "out-file".toList []) with
                 isSet := true
                 value := { (Flag.mkWithValue "--out".toList [] []
                    (Value.mkV [] "out-file".toList [])).value with str := "result.txt".toList } }
      ∧ (mapFind? ap'.flags "--out".toList).map (fun g => g.value.isSet) =
          some (Flag.mkWithValue "--out".toList [] [] (Value.mkV [] "out-file".toList [])).value.isSet :=
  C3_amended_long_value sampleOutRegistry 1 0 "--out".toList "result.txt".toList "x".toList []
    "--out".toList (Flag.mkWithValue "--out".toList [] [] (Value.mkV [] "out-file".toList []))
    (by decide) (by decide) (by decide) (by decide) (by decide) (by decide) (by decide) (by decide)


/-- C8: defining a flag with both a long and a short alias, then looking it
up through indexed lookup by either alias, resolves through the same owning
key (shortFlag ++ longFlag) to the same stored entry, with no state change:
both alias tables point at the identical registered instance. -/
theorem C8_alias_lookup (ap : ArgParse) (l s d : Str)
    (hl : mapParamType l = .LongFlagWithoutEqType)
    (hs : mapParamType s = .ShortFlagType) :
    mapFind? ((ap.addFlag (Flag.mk3 l s d)).2).longFlags l = some (some (s ++ l))
    ∧ mapFind? ((ap.addFlag (Flag.mk3 l s d)).2).shortFlags s = some (some (s ++ l))
    ∧ ((ap.addFlag (Flag.mk3 l s d)).2).lookupFlag l =
        some (Flag.mk3 l s d, (ap.addFlag (Flag.mk3 l s d)).2)
    ∧ ((ap.addFlag (Flag.mk3 l s d)).2).lookupFlag s =
        some (Flag.mk3 l s d, (ap.addFlag (Flag.mk3 l s d)).2) := by
  have hlne : l ≠ [] := by
    intro hh
    rw [hh] at hl
    exact absurd hl (by decide)
  have hsne : s ≠ [] := by
    intro hh
    rw [hh] at hs
    exact absurd hs (by decide)
  have hadd : (ap.addFlag (Flag.mk3 l s d)).2 = { ap with flags := mapInsert ap.flags (s ++ l) (Flag.mk3 l s d), longFlags := mapInsert ap.longFlags l (some (s ++ l)), shortFlags := mapInsert ap.shortFlags s (some (s ++ l)) } := by
    unfold ArgParse.addFlag
    dsimp only [Flag.mk3]
    rw [if_neg (by simp [hsne]), if_neg hlne, if_neg hsne]
  refine ⟨?_, ?_, ?_, ?_⟩
  · rw [hadd]
    exact mapFind?_insert_self _ _ _
  · rw [hadd]
    exact mapFind?_insert_self _ _ _
  · rw [hadd]
    simp only [ArgParse.lookupFlag, hl, ArgParse.longLookup, mapFind?_insert_self,
      Option.map_some']
  · rw [hadd]
    simp only [ArgParse.lookupFlag, hs, ArgParse.shortLookup, mapFind?_insert_self,
      Option.map_some']

/-- Witness for C8 at the flag Flag("--out", "-o"). -/
theorem C8_alias_lookup_witness :
    mapFind? ((ArgParse.init.addFlag (Flag.mk3 "--out".toList "-o".toList [])).2).longFlags
        "--out".toList = some (some ("-o".toList ++ "--out".toList))
    ∧ mapFind? ((ArgParse.init.addFlag (Flag.mk3 "--out".toList "-o".toList [])).2).shortFlags
        "-o".toList = some (some ("-o".toList ++ "--out".toList))
    ∧ ((ArgParse.init.addFlag (Flag.mk3 "--out".toList "-o".toList [])).2).lookupFlag
        "--out".toList = some (Flag.mk3 "--out".toList "-o".toList [],
          (ArgParse.init.addFlag (Flag.mk3 "--out".toList "-o".toList [])).2)
    ∧ ((ArgParse.init.addFlag (Flag.mk3 "--out".toList "-o".toList [])).2).lookupFlag
        "-o".toList = some (Flag.mk3 "--out".toList "-o".toList [],
          (ArgParse.init.addFlag (Flag.mk3 "--out".toList "-o".toList [])).2) :=
  C8_alias_lookup ArgParse.init "--out".toList "-o".toList [] (by decide) (by decide)

/-- Parsing a two-token input [prog, p] where p is a registered short or
long flag without value: the flag entry under key k gets isSet = true, and
parse completes (with a boolean depending only on the required-positional
counter). -/
theorem parse_two_token_flag (σ : ArgParse) (prog p k : Str) (f : Flag)
    (hshape : mapParamType p = .ShortFlagType ∨ mapParamType p = .LongFlagWithoutEqType)
    (hks : mapParamType p = .ShortFlagType → mapFind? σ.shortFlags p = some (some k))
    (hkl : mapParamType p = .LongFlagWithoutEqType → mapFind? σ.longFlags p = some (some k))
    (hf : mapFind? σ.flags k = some f)
    (hnv : f.hasValue = false) :
    ∃ b ap2, σ.parse 2 (some [some prog, some p]) = some (b, ap2)
      ∧ mapFind? ap2.flags k = some { f with isSet := true } := by
  have hguard : emptyGuardCheck 2 (some [some prog, some p]) = some false := rfl
  have hderef : derefArgv [some prog, some p] ((2 : Int)).toNat = some [prog, p] := rfl
  set σ1 := σ.setProgramName prog with hσ1
  have hf1 : mapFind? σ1.flags k = some f := by
    rw [hσ1, setProgramName_flags]
    exact hf
  have hstepEq : ∃ ap3 : ArgParse,
      σ1.parseStep (countRequired σ1.args) 0 p [] = some (ap3, countRequired σ1.args, 0, false)
      ∧ ap3.flags = mapUpdate σ1.flags k (fun g => { g with isSet := true }) := by
    rcases hshape with hp | hp
    · exact ⟨_, parseStep_short_found σ1 _ 0 p [] k f hp
        (by rw [hσ1, setProgramName_shortFlags]; exact hks hp) hf1, rfl⟩
    · exact ⟨_, parseStep_long_noval σ1 _ 0 p [] k f hp
        (by rw [hσ1, setProgramName_longFlags]; exact hkl hp) hf1 hnv, rfl⟩
  obtain ⟨ap3, hstep, hflags3⟩ := hstepEq
  have hloop : σ1.parseLoop (countRequired σ1.args) 0 [p] = some (ap3, countRequired σ1.args) := by
    simp only [ArgParse.parseLoop, List.headD_nil, hstep]
    rw [if_neg (by simp)]
  have hlp : σ.loopPart 2 (some [some prog, some p]) = some (ap3, countRequired σ1.args) := by
    unfold ArgParse.loopPart
    simp only [Option.getD_some, List.head?_cons]
    rw [hderef]
    simp only [Option.some_bind, List.tail_cons]
    rw [← hσ1]
    exact hloop
  refine ⟨(ArgParse.finalize ap3 (countRequired σ1.args)).1,
    (ArgParse.finalize ap3 (countRequired σ1.args)).2, ?_, ?_⟩
  · unfold ArgParse.parse
    rw [hguard]
    dsimp only
    rw [hlp]
    simp only [Option.map_some']
  · rw [finalize_flags, hflags3, mapFind?_update_self, hf1]
    rfl

/-- C9 counterexample: the CombinedShortFlags-shaped name "-abc" refutes the
claim: indexed lookup registers the truncated name "-a" (not "-abc") with
isSet = false, and a subsequent parse of an input containing "-abc" is a
no-op for combined short flags, so the registered instance's isSet is still
false after the parse. -/
theorem C9_counterexample :
    ((ArgParse.init.lookupFlag "-abc".toList).map
      (fun r => (r.1.isSet, r.1.shortFlag,
        (mapFind? r.2.flags "-abc".toList).isSome,
        (mapFind? r.2.flags "-a".toList).isSome)) =
      some (false, "-a".toList, false, true))
    ∧ (((ArgParse.init.lookupFlag "-abc".toList).bind
        (fun r => r.2.parse 2 (some [some "p".toList, some "-abc".toList]))).map
        (fun r => (r.1, (mapFind? r.2.flags "-a".toList).map Flag.isSet)) =
      some (true, some false)) := ⟨rfl, rfl⟩

/-- C9 as amended: for every name of ShortFlag or LongFlagWithoutValue shape
not previously defined, indexed lookup returns a definition with
isSet = false and registers it under that name (the owning key equals the
name); a subsequent parse of an input containing that same name mutates that
identical registered entry, whose isSet is then observed true. (Names of
CombinedShortFlags shape are instead truncated to two characters by lookup
and left unset by parse — see the counterexample.) -/
theorem C9_amended_lazy_registration (ap : ArgParse) (prog p : Str)
    (hshape : mapParamType p = .ShortFlagType ∨ mapParamType p = .LongFlagWithoutEqType)
    (hsab : mapFind? ap.shortFlags p = none)
    (hlab : mapFind? ap.longFlags p = none) :
    ∃ f ap1 b ap2,
      ap.lookupFlag p = some (f, ap1)
      ∧ f.isSet = false
      ∧ mapFind? ap1.flags p = some f
      ∧ ap1.parse 2 (some [some prog, some p]) = some (b, ap2)
      ∧ mapFind? ap2.flags p = some { f with isSet := true } := by
  have hpne : p ≠ [] := by
    rcases hshape with hp | hp <;>
      (intro hh; rw [hh] at hp; exact absurd hp (by decide))
  rcases hshape with hp | hp
  · have haddPair : ap.addFlag (Flag.mk3 [] p []) = (Flag.mk3 [] p [],
        { ap with flags := mapInsert ap.flags p (Flag.mk3 [] p []), shortFlags := mapInsert ap.shortFlags p (some p) }) := by
      unfold ArgParse.addFlag
      dsimp only [Flag.mk3]
      rw [if_neg (by simp [hpne])]
      simp [hpne]
    refine ⟨Flag.mk3 [] p [],
      { ap with flags := mapInsert ap.flags p (Flag.mk3 [] p []), shortFlags := mapInsert ap.shortFlags p (some p) },
      ?_⟩
    have hlkp : ap.lookupFlag p = some (Flag.mk3 [] p [],
        { ap with flags := mapInsert ap.flags p (Flag.mk3 [] p []), shortFlags := mapInsert ap.shortFlags p (some p) }) := by
      simp only [ArgParse.lookupFlag, hp, ArgParse.shortLookup, hsab, haddPair]
    obtain ⟨b, ap2, hparse, hfind2⟩ := parse_two_token_flag
      { ap with flags := mapInsert ap.flags p (Flag.mk3 [] p []), shortFlags := mapInsert ap.shortFlags p (some p) }
      prog p p (Flag.mk3 [] p []) (Or.inl hp)
      (fun _ => mapFind?_insert_self _ _ _)
      (fun hx => absurd (hp.symm.trans hx) (by decide))
      (mapFind?_insert_self _ _ _) rfl
    exact ⟨b, ap2, hlkp, rfl, mapFind?_insert_self _ _ _, hparse, hfind2⟩
  · have haddPair : ap.addFlag (Flag.mk3 p [] []) = (Flag.mk3 p [] [],
        { ap with flags := mapInsert ap.flags p (Flag.mk3 p [] []), longFlags := mapInsert ap.longFlags p (some p) }) := by
      unfold ArgParse.addFlag
      dsimp only [Flag.mk3]
      rw [if_neg (by simp [hpne])]
      simp [hpne]
    refine ⟨Flag.mk3 p [] [],
      { ap with flags := mapInsert ap.flags p (Flag.mk3 p [] []), longFlags := mapInsert ap.longFlags p (some p) },
      ?_⟩
    have hlkp : ap.lookupFlag p = some (Flag.mk3 p [] [],
        { ap with flags := mapInsert ap.flags p (Flag.mk3 p [] []), longFlags := mapInsert ap.longFlags p (some p) }) := by
      simp only [ArgParse.lookupFlag, hp, ArgParse.longLookup, hlab, haddPair]
    obtain ⟨b, ap2, hparse, hfind2⟩ := parse_two_token_flag
      { ap with flags := mapInsert ap.flags p (Flag.mk3 p [] []), longFlags := mapInsert ap.longFlags p (some p) }
      prog p p (Flag.mk3 p [] []) (Or.inr hp)
      (fun hx => absurd (hp.symm.trans hx) (by decide))
      (fun _ => mapFind?_insert_self _ _ _)
      (mapFind?_insert_self _ _ _) rfl
    exact ⟨b, ap2, hlkp, rfl, mapFind?_insert_self _ _ _, hparse, hfind2⟩

/-- Witness for C9's amended statement at the fresh name "--verbose". -/
theorem C9_amended_lazy_registration_witness :
    ∃ f ap1 b ap2,
      ArgParse.init.lookupFlag "--verbose".toList = some (f, ap1)
      ∧ f.isSet = false
      ∧ mapFind? ap1.flags "--verbose".toList = some f
      ∧ ap1.parse 2 (some [some "p".toList, some "--verbose".toList]) = some (b, ap2)
      ∧ mapFind? ap2.flags "--verbose".toList = some { f with isSet := true } :=
  C9_amended_lazy_registration ArgParse.init "p".toList "--verbose".toList
    (Or.inr (by decide)) (by decide) (by decide)

/-- C7: a required-but-unsupplied flag value never causes parse to fail and
RequiredFlagValueMissing is never recorded by the parse loop: every error in
the final state is either pre-existing or has code ArgVIsEmpty or
RequiredArgumentMissing, and the boolean result is determined solely by the
empty-input guard and by whether the loop's final required-positional
counter is zero. -/
theorem C7_no_flag_value_error (ap : ArgParse) (argc : Int) (argv : Option (List (Option Str)))
    (b : Bool) (ap' : ArgParse) (h : ap.parse argc argv = some (b, ap')) :
    (∀ e ∈ ap'.errors, e ∈ ap.errors ∨ e.code = .ArgVIsEmpty ∨ e.code = .RequiredArgumentMissing)
    ∧ (∀ e ∈ ap'.errors, e ∉ ap.errors → e.code ≠ .RequiredFlagValueMissing)
    ∧ (emptyGuardCheck argc argv = some true → b = false)
    ∧ (emptyGuardCheck argc argv = some false →
        ∃ ap2 req', ap.loopPart argc argv = some (ap2, req') ∧ (b = true ↔ req' = 0)) := by
  have hmain : (∀ e ∈ ap'.errors, e ∈ ap.errors ∨ e.code = .ArgVIsEmpty ∨ e.code = .RequiredArgumentMissing)
      ∧ (emptyGuardCheck argc argv = some true → b = false)
      ∧ (emptyGuardCheck argc argv = some false →
          ∃ ap2 req', ap.loopPart argc argv = some (ap2, req') ∧ (b = true ↔ req' = 0)) := by
    unfold ArgParse.parse at h
    split at h <;> rename_i hg
    · exact absurd h (by simp)
    · cases h
      refine ⟨?_, fun _ => rfl, ?_⟩
      · intro e he
        rcases List.mem_append.mp he with h1 | h2
        · exact Or.inl h1
        · right
          left
          simp only [List.mem_singleton] at h2
          rw [h2]
          rfl
      · intro hgf
        rw [hg] at hgf
        exact absurd hgf (by simp)
    · rcases hlpr : ap.loopPart argc argv with _ | r
      · rw [hlpr] at h
        exact absurd h (by simp)
      · rw [hlpr] at h
        obtain ⟨ap2, req'⟩ := r
        simp only [Option.map_some'] at h
        have herr2 : ap2.errors = ap.errors := loopPart_errors ap argc argv ap2 req' hlpr
        unfold ArgParse.finalize at h
        by_cases hreq : req' = 0
        · rw [if_neg (fun hne => hne hreq)] at h
          simp only [Option.some.injEq, Prod.mk.injEq] at h
          obtain ⟨hb, hap⟩ := h
          refine ⟨?_, ?_, ?_⟩
          · intro e he
            rw [← hap, herr2] at he
            exact Or.inl he
          · intro hgt
            rw [hg] at hgt
            exact absurd hgt (by simp)
          · intro _
            exact ⟨ap2, req', rfl, by rw [← hb]; simp [hreq]⟩
        · rw [if_pos hreq] at h
          simp only [Option.some.injEq, Prod.mk.injEq] at h
          obtain ⟨hb, hap⟩ := h
          refine ⟨?_, ?_, ?_⟩
          · intro e he
            rw [← hap] at he
            rcases List.mem_append.mp he with h1 | h2
            · exact Or.inl (herr2 ▸ h1)
            · right
              right
              simp only [requiredErrors, List.mem_map, List.mem_range] at h2
              rcases h2 with ⟨j, _, rfl⟩
              rfl
          · intro hgt
            rw [hg] at hgt
            exact absurd hgt (by simp)
          · intro _
            exact ⟨ap2, req', rfl, by rw [← hb]; simp [hreq]⟩
  refine ⟨hmain.1, ?_, hmain.2.1, hmain.2.2⟩
  intro e he hni hcode
  rcases hmain.1 e he with h1 | h2 | h3
  · exact hni h1
  · rw [hcode] at h2
    exact absurd h2 (by decide)
  · rw [hcode] at h3
    exact absurd h3 (by decide)

/-- Witness for C7: a one-token input (just a program name) on a fresh
registry parses successfully with a zero required counter. -/
theorem C7_no_flag_value_error_witness :
    ∃ ap2 req', ArgParse.init.loopPart 1 (some [some "p".toList]) = some (ap2, req')
      ∧ (true = true ↔ req' = 0) :=
  (C7_no_flag_value_error ArgParse.init 1 (some [some "p".toList]) true onlyProgState
    (by rfl)).2.2.2 (by rfl)


end argparse
